import Mathlib

/-!
Verification development for the block-sync importer
(`crates/services/sync/src/import.rs`).

The Rust pipeline is embedded shallowly:

* The external ports (`PeerToPeerPort`, `ConsensusPort`, `BlockImporterPort`)
  and the external block constructor `Block::try_from_executed` are modelled
  as an `Env` record of deterministic oracle functions.  Errors are opaque
  (`anyhow::Error`) and modelled as `Nat` tags; transactions, peer ids,
  block ids and consensus seals are likewise opaque and modelled as `Nat`.
* The stream pipelines (`launch_stream`, `launch_stream_v3`) are embedded by
  their sequential denotation over the list of heights of the range: the
  `buffered(n)` combinator releases completions in submission order and the
  oracles are deterministic functions, so the observable outcome
  (commit sequence, count, final result) of a run equals the sequential
  fold over heights in increasing order.  Scheduling-level effects
  (how many fetches are in flight at an instant) are outside this embedding.
* The shutdown signal (`take_until`) is modelled as never firing: the
  claims settled here concern completed runs.
* A ghost `log` records, in order, the heights at which `State.commit` was
  invoked, so that commit contiguity can be stated.
-/

/-- Consensus portion of a block header; carries the advertised height
(`header.entity.consensus.height` in the source). -/
structure ConsensusHeader where
  height : Nat
deriving Repr, DecidableEq

/-- Block header (`BlockHeader`): consensus part, data-availability height,
and the deterministic block identifier derivable from the header
(`header.entity.id()` in the source, modelled as a stored field). -/
structure BlockHeader where
  consensus : ConsensusHeader
  da_height : Nat
  id : Nat
deriving Repr, DecidableEq

/-- Height accessor: `BlockHeader::height()` returns `consensus.height`. -/
def BlockHeader.height (h : BlockHeader) : Nat :=
  h.consensus.height

/-- A block assembled from a header and an ordered transaction list
(transactions are opaque, modelled as `Nat`). -/
structure Block where
  header : BlockHeader
  transactions : List Nat
deriving Repr, DecidableEq

/-- An entity bundled with its consensus seal (`Sealed<T>`); the seal itself
is opaque and modelled as `Nat`. -/
structure Sealed (T : Type) where
  entity : T
  consensus : Nat
deriving Repr, DecidableEq

/-- A value tagged with the peer that supplied it (`SourcePeer<T>`). -/
structure SourcePeer (T : Type) where
  peer_id : Nat
  data : T
deriving Repr, DecidableEq

/-- Sealed block header (`SealedBlockHeader`). -/
abbrev SealedBlockHeader := Sealed BlockHeader

/-- Sealed block (`SealedBlock`). -/
abbrev SealedBlock := Sealed Block

deriving instance DecidableEq for Except

/-- The external ports consumed by the importer, as deterministic oracles.
`try_from_executed_ok` is the integrity check inside the external
constructor `Block::try_from_executed` (see `Block.try_from_executed`). -/
structure Env where
  get_sealed_block_header : Nat → Except Nat (Option (SourcePeer SealedBlockHeader))
  check_sealed_header : SealedBlockHeader → Except Nat Bool
  await_da_height : Nat → Except Nat Unit
  get_transactions : SourcePeer Nat → Except Nat (Option (List Nat))
  try_from_executed_ok : BlockHeader → List Nat → Bool
  execute_and_commit_port : SealedBlock → Except Nat Unit

/-- Modelled from the spec: `Block::try_from_executed` lives in the external
`fuel_core_types` crate (not under the sources).  Per the spec's data model,
a `Block` is assembled from the given header plus the ordered transaction
list whenever the block's internal integrity check (abstracted as the
`try_from_executed_ok` oracle) accepts it, and is refused (`none`)
otherwise. -/
def Block.try_from_executed (env : Env) (header : BlockHeader)
    (transactions : List Nat) : Option Block :=
  if env.try_from_executed_ok header transactions then
    some { header := header, transactions := transactions }
  else
    none

/-- Modelled from the spec: the shared import `State` (its module is not
under the sources; only its call sites in `import.rs` are).  Fields follow
the spec's data model section. -/
structure State where
  observed_tip : Option Nat
  committed_tip : Option Nat
  in_progress : Option (Nat × Nat)
  failed : List (Nat × Nat)
deriving Repr, DecidableEq

/-- Successor of an optional tip: the first height not yet covered. -/
def tipSucc : Option Nat → Nat
  | none => 0
  | some t => t + 1

/-- Removes a single height from an inclusive range, splitting it into the
surviving pieces. -/
def removeHeightFromRange (h : Nat) (r : Nat × Nat) : List (Nat × Nat) :=
  if r.1 ≤ h ∧ h ≤ r.2 then
    (if r.1 < h then [(r.1, h - 1)] else []) ++
      (if h < r.2 then [(h + 1, r.2)] else [])
  else
    [r]

/-- Modelled from the spec: `State::commit(h)` records `h` as the committed
tip and clears `h` from any recorded failed range. -/
def State.commit (s : State) (h : Nat) : State :=
  { s with
    committed_tip := some h
    failed := (s.failed.map (removeHeightFromRange h)).flatten }

/-- Modelled from the spec: `State::failed_to_process(r)` simply records the
range; it never mutates the committed tip. -/
def State.failed_to_process (s : State) (r : Nat × Nat) : State :=
  { s with failed := s.failed ++ [r] }

/-- Modelled from the spec: `State::process_range` returns
`(committed_tip + 1)..=observed_tip` iff that interval is non-empty
(`none` otherwise) and records the returned range as `in_progress`. -/
def State.process_range (s : State) : Option (Nat × Nat) × State :=
  match s.observed_tip with
  | none => (none, s)
  | some obs =>
      let lo := tipSucc s.committed_tip
      if lo ≤ obs then
        (some (lo, obs), { s with in_progress := some (lo, obs) })
      else
        (none, s)

/-- Embeds `validate_header_height`: the header is accepted iff its
advertised height (`header.entity.consensus.height`) equals the expected
height. -/
def validate_header_height (expected_height : Nat)
    (header : SealedBlockHeader) : Bool :=
  header.entity.consensus.height == expected_height

/-- Embeds the per-height element of the `get_header_range` stream (stage 1):
fetch the sealed header for `height` and drop it (to `none`) unless its
advertised height matches. -/
def get_header_range_at (env : Env) (height : Nat) :
    Except Nat (Option (SourcePeer SealedBlockHeader)) :=
  match env.get_sealed_block_header height with
  | .error e => .error e
  | .ok none => .ok none
  | .ok (some header) =>
      if validate_header_height height header.data then
        .ok (some header)
      else
        .ok none

/-- Embeds `get_transactions_on_block`: request the transactions for the
block id, then assemble a sealed block from the header entity and the fetched
transactions, passing the consensus seal through unchanged. -/
def get_transactions_on_block (env : Env) (block_id : SourcePeer Nat)
    (header : SealedBlockHeader) : Except Nat (Option SealedBlock) :=
  match env.get_transactions block_id with
  | .error e => .error e
  | .ok none => .ok none
  | .ok (some transactions) =>
      match Block.try_from_executed env header.entity transactions with
      | none => .ok none
      | some block => .ok (some { entity := block, consensus := header.consensus })

/-- Embeds the stage-2 body shared by the pipeline variants
(the `consensus_and_transactions` span): given the stage-1 outcome for a
height, check the consensus seal, await the DA height, and fetch the
transactions; errors propagate, an invalid seal yields `none`. -/
def consensus_and_transactions (env : Env)
    (result : Except Nat (Option (SourcePeer SealedBlockHeader))) :
    Except Nat (Option SealedBlock) :=
  match result with
  | .error e => .error e
  | .ok none => .ok none
  | .ok (some src) =>
      let header := src.data
      let block_id : SourcePeer Nat := { peer_id := src.peer_id, data := header.entity.id }
      match env.check_sealed_header header with
      | .error e => .error e
      | .ok false => .ok none
      | .ok true =>
          match env.await_da_height header.entity.da_height with
          | .error e => .error e
          | .ok _ => get_transactions_on_block env block_id header

/-- Per-height composition of stage 1 and stage 2: the value a single height
contributes to the pipeline before the execute-and-commit stage. -/
def fetch_block (env : Env) (height : Nat) : Except Nat (Option SealedBlock) :=
  consensus_and_transactions env (get_header_range_at env height)

/-- Embeds the helper `execute_and_commit`: run the executor port on the
block; on success mark the block's height committed in the shared state; on
failure leave the state untouched; return the port's result either way. -/
def execute_and_commit (env : Env) (s : State) (block : SealedBlock) :
    State × Except Nat Unit :=
  let height := block.entity.header.height
  let r := env.execute_and_commit_port block
  match r with
  | .ok _ => (s.commit height, r)
  | .error _ => (s, r)

/-- Outcome of one pipeline run: the final shared state, the ghost log of
heights at which `State.commit` was invoked (in invocation order), the
folded success count, and the folded result. -/
structure RunResult where
  state : State
  log : List Nat
  count : Nat
  result : Except Nat Unit
deriving Repr, DecidableEq

/-- Sequential denotation of `launch_stream` (and of `launch_stream_v2`,
which has the same per-height short-circuit structure): heights are drained
in increasing order; the `scan_none_or_err` guards close the stream on the
first `none` (gracefully) or the first error (capturing it), and `scan_err`
closes it after the first execute-and-commit error, so nothing past the
first failure is executed or committed. -/
def launch_stream_go (env : Env) :
    List Nat → State → List Nat → Nat → RunResult
  | [], s, log, count => ⟨s, log, count, .ok ()⟩
  | h :: rest, s, log, count =>
      match fetch_block env h with
      | .error e => ⟨s, log, count, .error e⟩
      | .ok none => ⟨s, log, count, .ok ()⟩
      | .ok (some block) =>
          match execute_and_commit env s block with
          | (s', .ok _) =>
              launch_stream_go env rest s'
                (log ++ [block.entity.header.height]) (count + 1)
          | (s', .error e) => ⟨s', log, count, .error e⟩

/-- The heights of an inclusive range `a..=b`, lowest first. -/
def rangeList (a b : Nat) : List Nat :=
  List.range' a (b + 1 - a)

/-- Embeds `launch_stream` on the inclusive range `a..=b`. -/
def launch_stream (env : Env) (a b : Nat) (s : State) : RunResult :=
  launch_stream_go env (rangeList a b) s [] 0

/-- Sequential denotation of `launch_stream_v3`: there are no scan guards,
so the stream is never closed early.  An errored height records its error in
the fold accumulator (overwriting any earlier one) and the run continues; a
`none` height contributes `Ok(())` to the fold, which increments the count;
a block is executed and committed regardless of earlier failures. -/
def launch_stream_v3_go (env : Env) :
    List Nat → State → List Nat → Nat → Except Nat Unit → RunResult
  | [], s, log, count, err => ⟨s, log, count, err⟩
  | h :: rest, s, log, count, err =>
      match fetch_block env h with
      | .error e => launch_stream_v3_go env rest s log count (.error e)
      | .ok none => launch_stream_v3_go env rest s log (count + 1) err
      | .ok (some block) =>
          match execute_and_commit env s block with
          | (s', .ok _) =>
              launch_stream_v3_go env rest s'
                (log ++ [block.entity.header.height]) (count + 1) err
          | (s', .error e) => launch_stream_v3_go env rest s' log count (.error e)

/-- Embeds `launch_stream_v3` on the inclusive range `a..=b`. -/
def launch_stream_v3 (env : Env) (a b : Nat) (s : State) : RunResult :=
  launch_stream_v3_go env (rangeList a b) s [] 0 (.ok ())

/-- Embeds `import_inner`, abstracting the version dispatch as a `launch`
parameter: ask the state for a range; if there is one, run the selected
pipeline over it; if the run's count falls short of the range length, record
the unprocessed suffix via `failed_to_process`; propagate the run's
result. -/
def import_inner (launch : Env → Nat → Nat → State → RunResult)
    (env : Env) (s : State) : State × Except Nat Unit :=
  match s.process_range with
  | (none, s1) => (s1, .ok ())
  | (some r, s1) =>
      let rr := launch env r.1 r.2 s1
      let range_len := r.2 + 1 - r.1
      if rr.count < range_len then
        (rr.state.failed_to_process (r.1 + rr.count, r.2), rr.result)
      else
        (rr.state, rr.result)

/-- Embeds `wait_for_notify_or_shutdown`: `futures::future::select` of the
notified future (left) against the shutdown future (right).  The futures are
modelled by the poll round at which each first resolves; `select` polls the
left future first each round, so it yields `Left` — and the function returns
`true` — iff the notified future resolves no later than shutdown. -/
def wait_for_notify_or_shutdown (notify_ready shutdown_ready : Nat) : Bool :=
  decide (notify_ready ≤ shutdown_ready)

/-- Embeds the entry point `Import::import` (version 1): run `import_inner`
with `launch_stream`; on error propagate it, otherwise report which of the
wake notification and the shutdown signal fired first. -/
def import_one_cycle (env : Env) (s : State)
    (notify_ready shutdown_ready : Nat) : State × Except Nat Bool :=
  match import_inner launch_stream env s with
  | (s1, .error e) => (s1, .error e)
  | (s1, .ok _) => (s1, .ok (wait_for_notify_or_shutdown notify_ready shutdown_ready))

/-! Concrete oracle environments used to evaluate the embedded pipeline on
small inputs.  `mkHeader h` is a well-formed sealed header advertising
height `h`, supplied by peer 7 with seal 99 and id `h`. -/

/-- A sealed header advertising exactly the requested height. -/
def mkHeader (h : Nat) : SourcePeer SealedBlockHeader :=
  { peer_id := 7, data := { entity := { consensus := { height := h }, da_height := 0, id := h }, consensus := 99 } }

/-- An environment in which every port call succeeds and every header is
well formed. -/
def envGood : Env where
  get_sealed_block_header := fun h => .ok (some (mkHeader h))
  check_sealed_header := fun _ => .ok true
  await_da_height := fun _ => .ok ()
  get_transactions := fun _ => .ok (some [])
  try_from_executed_ok := fun _ _ => true
  execute_and_commit_port := fun _ => .ok ()

/-- Initial state for the concrete runs: observed tip 2, nothing committed. -/
def s0 : State :=
  { observed_tip := some 2, committed_tip := none, in_progress := none, failed := [] }

/-- Good environment except that the header fetch for height 1 fails with
transport error 5. -/
def envC1 : Env :=
  { envGood with
    get_sealed_block_header := fun h =>
      if h = 1 then .error 5 else .ok (some (mkHeader h)) }

/-- Good environment except that every consensus-seal check returns
`Ok(false)` (invalid seal). -/
def envC2 : Env :=
  { envGood with check_sealed_header := fun _ => .ok false }

/-- Good environment except that no peer supplies a header for height 1. -/
def envC5 : Env :=
  { envGood with
    get_sealed_block_header := fun h =>
      if h = 1 then .ok none else .ok (some (mkHeader h)) }

/-- Environment in which the header fetch for height 1 fails with error 5
and executing the block at height 2 fails with error 6. -/
def envC8 : Env :=
  { envGood with
    get_sealed_block_header := fun h =>
      if h = 1 then .error 5 else .ok (some (mkHeader h))
    execute_and_commit_port := fun b =>
      if b.entity.header.height = 2 then .error 6 else .ok () }

/-- Good environment except that no peer supplies a header for height 2. -/
def envC5w : Env :=
  { envGood with
    get_sealed_block_header := fun h =>
      if h = 2 then .ok none else .ok (some (mkHeader h)) }

/-- Environment in which header fetches fail for height 2 (error 5) and
height 3 (error 6), while height 1 succeeds. -/
def envC8w : Env :=
  { envGood with
    get_sealed_block_header := fun h =>
      if h = 2 then .error 5
      else if h = 3 then .error 6
      else .ok (some (mkHeader h)) }

/-- Environment in which every header fetch fails with error 9. -/
def envC4w : Env :=
  { envGood with get_sealed_block_header := fun _ => .error 9 }

/-- Environment in which the peer answers the header request for height 2
with a header advertising height 5. -/
def envC6w : Env :=
  { envGood with
    get_sealed_block_header := fun h =>
      if h = 2 then .ok (some (mkHeader 5)) else .ok (some (mkHeader h)) }

/-- Environment in which the transaction fetch returns the list `[3, 4]`. -/
def envC10w : Env :=
  { envGood with get_transactions := fun _ => .ok (some [3, 4]) }

/-- State with no observed tip: `process_range` yields no range. -/
def sEmpty : State :=
  { observed_tip := none, committed_tip := none, in_progress := none, failed := [] }

/-- The state `s0` after `process_range` has recorded `0..=2` as in
progress. -/
def s0InProgress : State :=
  { s0 with in_progress := some (0, 2) }

/-- A concrete sealed block at height 1 with no transactions. -/
def blkW : SealedBlock :=
  { entity := { header := (mkHeader 1).data.entity, transactions := [] }, consensus := 99 }

/-- A concrete sealed header at height 2. -/
def hdrW : SealedBlockHeader :=
  (mkHeader 2).data

/-- The sealed block assembled from `hdrW` and the transactions `[3, 4]`. -/
def sbW : SealedBlock :=
  { entity := { header := hdrW.entity, transactions := [3, 4] }, consensus := 99 }

/-! ## Helper lemmas -/

/-- A successful stage-1 result for height `h` carries the header the
transport returned, and that header advertises exactly height `h`. -/
theorem get_header_range_at_ok_some (env : Env) (h : Nat)
    (src : SourcePeer SealedBlockHeader)
    (hg : get_header_range_at env h = .ok (some src)) :
    env.get_sealed_block_header h = .ok (some src) ∧
      src.data.entity.consensus.height = h := by
  unfold get_header_range_at at hg
  split at hg
  next e heq => simp at hg
  next heq => simp at hg
  next hdr heq =>
    split at hg
    next hv =>
      simp only [Except.ok.injEq, Option.some.injEq] at hg
      subst hg
      exact ⟨heq, by simpa [validate_header_height] using hv⟩
    next hv => simp at hg

/-- A successful stage-2 result arises from a successful stage-1 result, and
the produced sealed block keeps the header entity and the consensus seal of
that stage-1 header. -/
theorem consensus_and_transactions_ok_some (env : Env)
    (r : Except Nat (Option (SourcePeer SealedBlockHeader))) (bl : SealedBlock)
    (hc : consensus_and_transactions env r = .ok (some bl)) :
    ∃ src, r = .ok (some src) ∧ bl.entity.header = src.data.entity ∧
      bl.consensus = src.data.consensus := by
  cases r with
  | error e => exact Except.noConfusion hc
  | ok o =>
    cases o with
    | none => simp [consensus_and_transactions] at hc
    | some src =>
      refine ⟨src, rfl, ?_⟩
      simp only [consensus_and_transactions] at hc
      split at hc
      next e heq => simp at hc
      next heq => simp at hc
      next heq =>
        split at hc
        next e heq2 => simp at hc
        next heq2 =>
          simp only [get_transactions_on_block] at hc
          split at hc
          next e heq3 => simp at hc
          next heq3 => simp at hc
          next txs heq3 =>
            split at hc
            next htf => simp at hc
            next block htf =>
              simp only [Except.ok.injEq, Option.some.injEq] at hc
              subst hc
              simp only [Block.try_from_executed] at htf
              split at htf
              next =>
                cases htf
                exact ⟨rfl, rfl⟩
              next => simp at htf

/-- A block produced by the per-height stages for height `h` carries header
height exactly `h`. -/
theorem fetch_block_height (env : Env) (h : Nat) (bl : SealedBlock)
    (hfb : fetch_block env h = .ok (some bl)) :
    bl.entity.header.height = h := by
  unfold fetch_block at hfb
  obtain ⟨src, hr, hent, _⟩ := consensus_and_transactions_ok_some env _ bl hfb
  obtain ⟨_, hh⟩ := get_header_range_at_ok_some env h src hr
  rw [BlockHeader.height, hent, hh]

/-- The guarded pipeline commits a prefix: for any height list, the run
appends exactly the first `k` heights of the list to the commit log, for
some `k`, and the returned count grows by that same `k`. -/
theorem launch_stream_go_spec (env : Env) :
    ∀ (l : List Nat) (s : State) (log : List Nat) (count : Nat),
    ∃ k, k ≤ l.length ∧
      (launch_stream_go env l s log count).log = log ++ l.take k ∧
      (launch_stream_go env l s log count).count = count + k := by
  intro l
  induction l with
  | nil =>
    intro s log count
    exact ⟨0, by simp, by simp [launch_stream_go], by simp [launch_stream_go]⟩
  | cons h rest ih =>
    intro s log count
    cases hfb : fetch_block env h with
    | error e =>
      refine ⟨0, by simp, ?_, ?_⟩ <;> simp [launch_stream_go, hfb]
    | ok o =>
      cases o with
      | none =>
        refine ⟨0, by simp, ?_, ?_⟩ <;> simp [launch_stream_go, hfb]
      | some block =>
        have hht := fetch_block_height env h block hfb
        cases hec : env.execute_and_commit_port block with
        | error e =>
          have hexec : execute_and_commit env s block = (s, .error e) := by
            simp [execute_and_commit, hec]
          refine ⟨0, by simp, ?_, ?_⟩ <;> simp [launch_stream_go, hfb, hexec]
        | ok u =>
          have hexec : execute_and_commit env s block =
              (s.commit block.entity.header.height, .ok ()) := by
            simp [execute_and_commit, hec]
          have hstep : launch_stream_go env (h :: rest) s log count =
              launch_stream_go env rest (s.commit block.entity.header.height)
                (log ++ [block.entity.header.height]) (count + 1) := by
            simp [launch_stream_go, hfb, hexec]
          obtain ⟨k, hk, hlog, hcount⟩ :=
            ih (s.commit block.entity.header.height)
              (log ++ [block.entity.header.height]) (count + 1)
          refine ⟨k + 1, by simpa using Nat.succ_le_succ hk, ?_, ?_⟩
          · rw [hstep, hlog, hht, List.take_succ_cons, List.append_assoc]
            rfl
          · rw [hstep, hcount]
            omega

/-- Taking a portion of `List.range'` yields the shorter `List.range'`. -/
theorem take_range'_eq (n : Nat) : ∀ (a k : Nat),
    (List.range' a n).take k = List.range' a (min k n) := by
  induction n with
  | zero => intro a k; simp
  | succ m ih =>
    intro a k
    cases k with
    | zero => simp
    | succ j =>
      rw [List.range'_succ, List.take_succ_cons, ih (a + 1) j,
        Nat.succ_min_succ, List.range'_succ]

/-- Running the guarded pipeline over a list that starts with heights whose
stages and execution all succeed first commits exactly those heights, then
continues with the remaining heights. -/
theorem launch_stream_go_append (env : Env) :
    ∀ (l1 l2 : List Nat) (s : State) (log : List Nat) (count : Nat),
    (∀ h' ∈ l1, ∃ bl, fetch_block env h' = .ok (some bl) ∧
      env.execute_and_commit_port bl = .ok ()) →
    ∃ s', launch_stream_go env (l1 ++ l2) s log count =
      launch_stream_go env l2 s' (log ++ l1) (count + l1.length) := by
  intro l1
  induction l1 with
  | nil =>
    intro l2 s log count _
    exact ⟨s, by simp⟩
  | cons h t ih =>
    intro l2 s log count hgood
    obtain ⟨bl, hfb, hec⟩ := hgood h (by simp)
    have hht := fetch_block_height env h bl hfb
    subst hht
    have hexec : execute_and_commit env s bl =
        (s.commit bl.entity.header.height, .ok ()) := by
      simp [execute_and_commit, hec]
    have hstep : launch_stream_go env ((bl.entity.header.height :: t) ++ l2) s log count =
        launch_stream_go env (t ++ l2) (s.commit bl.entity.header.height)
          (log ++ [bl.entity.header.height]) (count + 1) := by
      simp [launch_stream_go, hfb, hexec]
    obtain ⟨s', hs'⟩ := ih l2 (s.commit bl.entity.header.height)
      (log ++ [bl.entity.header.height]) (count + 1)
      (fun h' hm => hgood h' (by simp [hm]))
    have h1 : (log ++ [bl.entity.header.height]) ++ t =
        log ++ bl.entity.header.height :: t := by simp
    have h2 : count + 1 + t.length = count + (bl.entity.header.height :: t).length := by
      simp only [List.length_cons]
      omega
    exact ⟨s', by rw [hstep, hs', h1, h2]⟩

/-! ## Claim theorems -/

/-- C1 (counterexample): in `launch_stream_v3` the run over `1..=2` fails at
height 1 (transport error 5 is the run's result), yet height 2 — strictly
greater than the failing height — is committed during that run, so commits
are not contiguous from the low end of the range. -/
theorem launch_stream_v3_commits_after_failure :
    (launch_stream_v3 envC1 1 2 s0).result = Except.error 5 ∧
    (launch_stream_v3 envC1 1 2 s0).log = [2] :=
  ⟨rfl, rfl⟩

/-- C1 (amended): for the guarded variants (`launch_stream`, and
`launch_stream_v2` with the same short-circuit structure), commits are
contiguous from the low end of the range: the heights committed during a run
over `a..=b` are exactly `a, a+1, …, a+count-1`, so once the run fails at a
height, no greater height of the range is committed. -/
theorem launch_stream_commits_contiguous (env : Env) (a b : Nat) (s : State) :
    (launch_stream env a b s).log =
      List.range' a ((launch_stream env a b s).count) := by
  obtain ⟨k, hk, hlog, hcount⟩ := launch_stream_go_spec env (rangeList a b) s [] 0
  unfold launch_stream
  rw [hlog, hcount]
  simp only [List.nil_append, Nat.zero_add]
  rw [rangeList, take_range'_eq]
  congr 1
  exact Nat.min_eq_left (by simpa [rangeList, List.length_range'] using hk)

/-- C2 (counterexample): in `launch_stream_v3` over the range `1..=1`, the
consensus check rejects the only header, so its stage emits `None` and no
block is executed or committed — yet the returned count is 1, not 0. -/
theorem launch_stream_v3_counts_skipped_height :
    (launch_stream_v3 envC2 1 1 s0).count = 1 ∧
    (launch_stream_v3 envC2 1 1 s0).log = [] :=
  ⟨rfl, rfl⟩

/-- C2 (amended): for the guarded variant `launch_stream` (and
`launch_stream_v2`), the returned count equals the number of blocks
successfully executed and committed during the run, counted from the low end
of the range in increasing height order; skipped and failed heights do not
increase it. -/
theorem launch_stream_count_eq_commits (env : Env) (a b : Nat) (s : State) :
    (launch_stream env a b s).count = (launch_stream env a b s).log.length := by
  obtain ⟨k, hk, hlog, hcount⟩ := launch_stream_go_spec env (rangeList a b) s [] 0
  unfold launch_stream
  rw [hlog, hcount]
  simp only [List.nil_append, Nat.zero_add, List.length_take]
  exact (Nat.min_eq_left hk).symm

/-- C3: the helper `execute_and_commit` returns exactly the executor port's
result; when the port succeeds, the shared state is advanced by
`State.commit` at the block's height, and when the port fails, the shared
state is returned untouched (so the committed tip does not advance). -/
theorem execute_and_commit_spec (env : Env) (s : State) (block : SealedBlock) :
    (execute_and_commit env s block).2 = env.execute_and_commit_port block ∧
    (env.execute_and_commit_port block = .ok () →
      (execute_and_commit env s block).1 = s.commit block.entity.header.height) ∧
    (∀ e, env.execute_and_commit_port block = .error e →
      (execute_and_commit env s block).1 = s) := by
  refine ⟨?_, ?_, ?_⟩
  · cases hec : env.execute_and_commit_port block <;> simp [execute_and_commit, hec]
  · intro hec; simp [execute_and_commit, hec]
  · intro e hec; simp [execute_and_commit, hec]

/-- C3 (witness): in the all-good environment, committing the concrete block
at height 1 advances the state by `State.commit` at that height. -/
theorem execute_and_commit_spec_witness :
    (execute_and_commit envGood s0 blkW).1 = s0.commit blkW.entity.header.height :=
  (execute_and_commit_spec envGood s0 blkW).2.1 rfl

/-- C4: whenever `process_range` yields the range `a..=b`, `import_inner`
returns the run's result unchanged, and the shared state additionally
records the suffix `(a + count)..=b` via `failed_to_process` exactly when
the run's count falls short of the range length; when the count equals the
range length, the post-run state is returned as is. -/
theorem import_inner_failed_suffix
    (launch : Env → Nat → Nat → State → RunResult) (env : Env) (s s1 : State)
    (a b : Nat) (hpr : s.process_range = (some (a, b), s1)) :
    ((launch env a b s1).count < b + 1 - a →
      import_inner launch env s =
        ((launch env a b s1).state.failed_to_process
          (a + (launch env a b s1).count, b),
          (launch env a b s1).result)) ∧
    ((launch env a b s1).count = b + 1 - a →
      import_inner launch env s =
        ((launch env a b s1).state, (launch env a b s1).result)) := by
  constructor
  · intro hlt
    unfold import_inner
    rw [hpr]
    simp [hlt]
  · intro hcnt
    unfold import_inner
    rw [hpr]
    simp [hcnt]

/-- C4 (witness): starting from observed tip 2 with nothing committed, when
every header fetch fails the run commits nothing, and `import_inner` records
the whole range `0..=2` as failed and propagates the run's error. -/
theorem import_inner_failed_suffix_witness :
    import_inner launch_stream envC4w s0 =
      ((launch_stream envC4w 0 2 s0InProgress).state.failed_to_process
        (0 + (launch_stream envC4w 0 2 s0InProgress).count, 2),
        (launch_stream envC4w 0 2 s0InProgress).result) :=
  (import_inner_failed_suffix launch_stream envC4w s0 s0InProgress 0 2 rfl).1
    (by decide)

/-- C6: for a requested height `h` in stage 1, a transport error is yielded
unchanged; and when the transport returns a header, the stage yields
`Ok(none)` iff the header's advertised height differs from `h`, and yields
the header unchanged when the advertised height equals `h`. -/
theorem get_header_range_at_spec (env : Env) (h : Nat) :
    (∀ e, env.get_sealed_block_header h = .error e →
      get_header_range_at env h = .error e) ∧
    (∀ src, env.get_sealed_block_header h = .ok (some src) →
      ((get_header_range_at env h = .ok none ↔
          src.data.entity.consensus.height ≠ h) ∧
        (src.data.entity.consensus.height = h →
          get_header_range_at env h = .ok (some src)))) := by
  constructor
  · intro e he
    simp [get_header_range_at, he]
  · intro src hs
    constructor
    · constructor
      · intro hnone hgt
        have hv : validate_header_height h src.data = true := by
          simp [validate_header_height, hgt]
        simp [get_header_range_at, hs, hv] at hnone
      · intro hne
        have hv : validate_header_height h src.data = false := by
          simpa [validate_header_height] using hne
        simp [get_header_range_at, hs, hv]
    · intro hgt
      have hv : validate_header_height h src.data = true := by
        simp [validate_header_height, hgt]
      simp [get_header_range_at, hs, hv]

/-- C6 (witness): asking for height 2 while the peer answers with a header
advertising height 5 makes stage 1 yield `Ok(none)` at height 2. -/
theorem get_header_range_at_spec_witness :
    get_header_range_at envC6w 2 = Except.ok none :=
  ((get_header_range_at_spec envC6w 2).2 (mkHeader 5) rfl).1.mpr (by decide)

/-- C7: whenever the entry point finishes a cycle without propagating an
error, the returned boolean is `true` exactly when the wake notification
resolved no later than the shutdown future (the notified future is polled
first by the select). -/
theorem import_returns_wake_flag (env : Env) (s : State)
    (notify_ready shutdown_ready : Nat) (s1 : State) (flag : Bool)
    (hrun : import_one_cycle env s notify_ready shutdown_ready =
      (s1, .ok flag)) :
    (flag = true ↔ notify_ready ≤ shutdown_ready) := by
  unfold import_one_cycle at hrun
  split at hrun
  next s2 e heq => simp at hrun
  next s2 u heq =>
    simp only [Prod.mk.injEq, Except.ok.injEq] at hrun
    rw [← hrun.2]
    simp [wait_for_notify_or_shutdown]

/-- C7 (witness): with no observed tip the cycle does no work, and with the
notification resolving at round 0 against shutdown at round 1 the entry
point returns `Ok(true)`. -/
theorem import_returns_wake_flag_witness :
    (true = true ↔ (0 : Nat) ≤ 1) :=
  import_returns_wake_flag envGood sEmpty 0 1 sEmpty true rfl

/-- C10: whenever `get_transactions_on_block` returns a sealed block, the
block's consensus field is exactly the input header's seal and its entity is
the block `Block::try_from_executed` assembled from the header entity and
the fetched transactions; it returns `Ok(none)` exactly when the peer
reported no transactions or the assembly refused them. -/
theorem get_transactions_on_block_spec (env : Env) (block_id : SourcePeer Nat)
    (header : SealedBlockHeader) :
    (∀ sb, get_transactions_on_block env block_id header = .ok (some sb) →
      sb.consensus = header.consensus ∧
      ∃ txs, env.get_transactions block_id = .ok (some txs) ∧
        Block.try_from_executed env header.entity txs = some sb.entity) ∧
    (get_transactions_on_block env block_id header = .ok none ↔
      (env.get_transactions block_id = .ok none ∨
        ∃ txs, env.get_transactions block_id = .ok (some txs) ∧
          Block.try_from_executed env header.entity txs = none)) := by
  constructor
  · intro sb hsb
    unfold get_transactions_on_block at hsb
    split at hsb
    next e heq => simp at hsb
    next heq => simp at hsb
    next txs heq =>
      split at hsb
      next htf => simp at hsb
      next block htf =>
        simp only [Except.ok.injEq, Option.some.injEq] at hsb
        subst hsb
        exact ⟨rfl, txs, heq, htf⟩
  · constructor
    · intro hnone
      unfold get_transactions_on_block at hnone
      split at hnone
      next e heq => simp at hnone
      next heq => exact Or.inl heq
      next txs heq =>
        split at hnone
        next htf => exact Or.inr ⟨txs, heq, htf⟩
        next block htf => simp at hnone
    · intro hca
      cases hca with
      | inl h0 => simp [get_transactions_on_block, h0]
      | inr hex =>
        obtain ⟨txs, heq, htf⟩ := hex
        simp [get_transactions_on_block, heq, htf]

/-- C10 (witness): with the peer returning the transactions `[3, 4]` for the
height-2 header, the assembled sealed block keeps the header's seal and its
entity is the one `Block::try_from_executed` builds from the header entity
and those transactions. -/
theorem get_transactions_on_block_spec_witness :
    sbW.consensus = hdrW.consensus ∧
    ∃ txs, envC10w.get_transactions { peer_id := 7, data := 2 } = .ok (some txs) ∧
      Block.try_from_executed envC10w hdrW.entity txs = some sbW.entity :=
  (get_transactions_on_block_spec envC10w { peer_id := 7, data := 2 } hdrW).1
    sbW rfl

/-- C5 (counterexample): in `launch_stream_v3` over `1..=2`, stage 1
produces `None` at height 1 (no peer supplied a header), yet the run does
not close there: height 2 is still processed and committed. -/
theorem launch_stream_v3_continues_after_none :
    fetch_block envC5 1 = Except.ok none ∧
    (launch_stream_v3 envC5 1 2 s0).log = [2] ∧
    (launch_stream_v3 envC5 1 2 s0).result = Except.ok () :=
  ⟨rfl, rfl, rfl⟩

/-- C5 (amended): in the guarded variant `launch_stream` (and
`launch_stream_v2`), a `None` produced by any stage at height `h` closes
the pipeline gracefully: the heights before `h` commit, no height at or
after `h` is committed, and the run's result is `Ok`. -/
theorem launch_stream_none_closes (env : Env) (a b h : Nat) (s : State)
    (hah : a ≤ h) (hhb : h ≤ b)
    (hgood : ∀ h', a ≤ h' → h' < h →
      ∃ bl, fetch_block env h' = .ok (some bl) ∧
        env.execute_and_commit_port bl = .ok ())
    (hnone : fetch_block env h = .ok none) :
    (launch_stream env a b s).result = .ok () ∧
    (launch_stream env a b s).count = h - a ∧
    (launch_stream env a b s).log = List.range' a (h - a) := by
  have e1 : a + 1 * (h - a) = h := by omega
  have e2 : b + 1 - h + (h - a) = b + 1 - a := by omega
  have e3 : b + 1 - h = (b - h) + 1 := by omega
  have happ := List.range'_append a (h - a) (b + 1 - h) 1
  rw [e1, e2] at happ
  have hsplit : rangeList a b =
      List.range' a (h - a) ++ (h :: List.range' (h + 1) (b - h)) := by
    rw [rangeList, ← happ, e3, List.range'_succ]
  unfold launch_stream
  rw [hsplit]
  obtain ⟨s', hs'⟩ := launch_stream_go_append env (List.range' a (h - a))
    (h :: List.range' (h + 1) (b - h)) s [] 0
    (fun h' hm => by
      have hb := List.mem_range'_1.mp hm
      exact hgood h' hb.1 (by omega))
  rw [hs']
  simp [launch_stream_go, hnone, List.length_range']

/-- C5 (witness): over `1..=3` with height 1 healthy and no header supplied
for height 2, the guarded run commits exactly height 1, returns count 1, and
finishes with `Ok`. -/
theorem launch_stream_none_closes_witness :
    (launch_stream envC5w 1 3 s0).result = Except.ok () ∧
    (launch_stream envC5w 1 3 s0).count = 2 - 1 ∧
    (launch_stream envC5w 1 3 s0).log = List.range' 1 (2 - 1) :=
  launch_stream_none_closes envC5w 1 3 2 s0 (by decide) (by decide)
    (fun h' h1 h2 => by
      have hone : h' = 1 := by omega
      subst hone
      exact ⟨blkW, rfl, rfl⟩)
    rfl

/-- C8 (counterexample): in `launch_stream_v3` over `1..=2` the first error
observed is the transport error 5 at height 1, but executing height 2 later
fails with error 6 and the run returns that later error instead of the
first one. -/
theorem launch_stream_v3_keeps_last_error :
    fetch_block envC8 1 = Except.error 5 ∧
    (launch_stream_v3 envC8 1 2 s0).result = Except.error 6 :=
  ⟨rfl, rfl⟩

/-- C8 (amended): in the guarded variant `launch_stream` (and
`launch_stream_v2`), once the first error is observed — at the first height
`h` whose stages or execution fail, all earlier heights having succeeded —
the pipeline stops producing items: no height at or after `h` is committed
and the run's result is exactly that first error, whatever the oracles
would answer for later heights. -/
theorem launch_stream_first_error (env : Env) (a b h e : Nat) (s : State)
    (hah : a ≤ h) (hhb : h ≤ b)
    (hgood : ∀ h', a ≤ h' → h' < h →
      ∃ bl, fetch_block env h' = .ok (some bl) ∧
        env.execute_and_commit_port bl = .ok ())
    (herr : fetch_block env h = .error e ∨
      ∃ bl, fetch_block env h = .ok (some bl) ∧
        env.execute_and_commit_port bl = .error e) :
    (launch_stream env a b s).result = .error e ∧
    (launch_stream env a b s).count = h - a ∧
    (launch_stream env a b s).log = List.range' a (h - a) := by
  have e1 : a + 1 * (h - a) = h := by omega
  have e2 : b + 1 - h + (h - a) = b + 1 - a := by omega
  have e3 : b + 1 - h = (b - h) + 1 := by omega
  have happ := List.range'_append a (h - a) (b + 1 - h) 1
  rw [e1, e2] at happ
  have hsplit : rangeList a b =
      List.range' a (h - a) ++ (h :: List.range' (h + 1) (b - h)) := by
    rw [rangeList, ← happ, e3, List.range'_succ]
  unfold launch_stream
  rw [hsplit]
  obtain ⟨s', hs'⟩ := launch_stream_go_append env (List.range' a (h - a))
    (h :: List.range' (h + 1) (b - h)) s [] 0
    (fun h' hm => by
      have hb := List.mem_range'_1.mp hm
      exact hgood h' hb.1 (by omega))
  rw [hs']
  cases herr with
  | inl hf =>
    simp [launch_stream_go, hf, List.length_range']
  | inr hex =>
    obtain ⟨bl, hfb, hec⟩ := hex
    have hexec : execute_and_commit env s' bl = (s', .error e) := by
      simp [execute_and_commit, hec]
    simp [launch_stream_go, hfb, hexec, List.length_range']

/-- C8 (witness): over `1..=3` with height 1 healthy and the header fetches
for heights 2 and 3 failing with errors 5 and 6 respectively, the guarded
run returns the first error 5, having committed exactly height 1. -/
theorem launch_stream_first_error_witness :
    (launch_stream envC8w 1 3 s0).result = Except.error 5 ∧
    (launch_stream envC8w 1 3 s0).count = 2 - 1 ∧
    (launch_stream envC8w 1 3 s0).log = List.range' 1 (2 - 1) :=
  launch_stream_first_error envC8w 1 3 2 5 s0 (by decide) (by decide)
    (fun h' h1 h2 => by
      have hone : h' = 1 := by omega
      subst hone
      exact ⟨blkW, rfl, rfl⟩)
    (Or.inl rfl)
